import Mathlib

/-!
Verification development for the `blocrun` CLI (src/cli.js).

The repository's `src/cli.js` contains two near-duplicate revisions of the
same script, separated by a document marker:
  * revision 1: `readBlocks`, `writeBlocks`, `handleRun`, `handleKill`,
    `handleList`, `handleStatus` (first half of the file);
  * revision 2: an inline `run` / `kill` / `list` / `status` dispatch with
    its own `readBlocks` / `writeBlocks` (second half of the file).
Both are embedded here; revision-2 functions carry the suffix `2`.

Modelling conventions:
  * File contents are `List Char` / `String`; the Blocfile is an
    `Option String` (`none` = file absent).
  * The persisted `.blocks` registry file is a `RegFile`: absent, present
    but unparsable as JSON (`corrupt`), or present holding a parsed
    mapping (`valid`).  `JSON.parse` / `JSON.stringify` round-tripping is
    abstracted: a file written by `writeBlocks` is `valid` with exactly
    the written mapping.
  * A JS object with string keys is an insertion-ordered association
    list `Registry`; keys are unique in every object produced by the
    script, so `eraseReg` (which drops every binding of the key) agrees
    with JS `delete`.
  * `spawn` is abstracted by an oracle `Nat → Option Nat` from the global
    spawn-call index to the launched pid (`none` = `child.pid` falsy);
    process termination by `termOk : Nat → Bool`; the `status` liveness
    probe by `alive : Nat → Bool`.  `stdio` routing, `unref` and the
    actual OS side effects have no observable effect on the modelled
    state and are not represented.
  * `process.exit(1)` and falling off the end (exit 0) are modelled by
    the `code` field of `OpResult`; an uncaught exception (revision 2's
    `readBlocks` on an unparsable file) is `crashed := true` with
    `code := 1` (node exits 1 on an uncaught exception).
-/

/-- Left brace character, written via its code point. -/
def lbrace : Char := '\x7b'

/-- Right brace character, written via its code point. -/
def rbrace : Char := '\x7d'

/-- Whitespace as used by JS `String.trim` and the regex class `\s`
(restricted to the characters that can occur in our inputs). -/
def isWsChar (c : Char) : Bool :=
  c == ' ' || c == '\t' || c == '\n' || c == '\r'

/-- Word characters, the regex class `\w` = `[A-Za-z0-9_]`. -/
def isWordChar (c : Char) : Bool :=
  (('a' ≤ c && c ≤ 'z') || ('A' ≤ c && c ≤ 'Z') || ('0' ≤ c && c ≤ '9') || c == '_')

/-- JS `str.split("\n")` on a character list. -/
def splitLines : List Char → List (List Char)
  | [] => [[]]
  | c :: rest =>
    if c = '\n' then [] :: splitLines rest
    else
      match splitLines rest with
      | [] => [[c]]
      | l :: ls => (c :: l) :: ls

/-- JS `str.trim()` on a character list. -/
def trimChars (l : List Char) : List Char :=
  ((l.dropWhile isWsChar).reverse.dropWhile isWsChar).reverse

/-- The parsed `.blocks` mapping: block name → tracked pid list, in JS
object insertion order. -/
abbrev Registry := List (String × List Nat)

/-- JS property read `blocks[name]` (`none` = `undefined`). -/
def lookupReg : Registry → String → Option (List Nat)
  | [], _ => none
  | (k, v) :: rest, name => if k = name then some v else lookupReg rest name

/-- JS property write `blocks[name] = pids`: update in place if the key
exists, append otherwise. -/
def insertReg : Registry → String → List Nat → Registry
  | [], name, pids => [(name, pids)]
  | (k, v) :: rest, name, pids =>
    if k = name then (name, pids) :: rest else (k, v) :: insertReg rest name pids

/-- JS `delete blocks[name]` (keys are unique in every object the script
builds, so removing all bindings agrees with deleting the one binding). -/
def eraseReg : Registry → String → Registry
  | [], _ => []
  | (k, v) :: rest, name =>
    if k = name then eraseReg rest name else (k, v) :: eraseReg rest name

/-- State of the persisted `.blocks` file. -/
inductive RegFile where
  | absent
  | corrupt
  | valid (data : Registry)
  deriving DecidableEq, Repr

/-- Mapping held by a registry file state (absent/corrupt hold nothing). -/
def mappingOf : RegFile → Registry
  | RegFile.valid m => m
  | _ => []

/-- Revision 1 `readBlocks`: `try { return JSON.parse(read(".blocks")) }
catch { return {} }` — an absent or unparsable file reads as `{}`. -/
def readBlocks : RegFile → Registry
  | RegFile.valid m => m
  | _ => []

/-- Revision 2 `readBlocks`: `JSON.parse(fs.readFileSync(".blocks"))` with
no exception handling — an absent or unparsable file throws. -/
def readBlocks2 : RegFile → Except Unit Registry
  | RegFile.valid m => Except.ok m
  | _ => Except.error ()

/-- JS `fs.existsSync(".blocks")`. -/
def rfPresent : RegFile → Bool
  | RegFile.absent => false
  | _ => true

/-- The single-block lookup regex `new RegExp(name + "\\s*{([\\s\\S]*?)}", "m")`,
header part: at a candidate start position, match the name literally, then
`\s*`, then a left brace; return the remainder after the brace. -/
def headerMatchAt (name s : List Char) : Option (List Char) :=
  if name.isPrefixOf s then
    match (s.drop name.length).dropWhile isWsChar with
    | c :: rest => if c = lbrace then some rest else none
    | [] => none
  else none

/-- Lazy capture `([\s\S]*?)}`: the (possibly empty) text before the first
right brace; no right brace at all fails the match at this start position. -/
def captureBody (rest : List Char) : Option (List Char) :=
  if rest.contains rbrace then some (rest.takeWhile (fun c => c != rbrace)) else none

/-- `file.match(new RegExp(name + "\\s*{([\\s\\S]*?)}", "m"))`: leftmost
start position wins (the `m` flag is inert: the pattern has no anchors);
returns the capture group. -/
def extractBlock (name : List Char) : List Char → Option (List Char)
  | [] => (headerMatchAt name []).bind captureBody
  | c :: rest =>
    match (headerMatchAt name (c :: rest)).bind captureBody with
    | some b => some b
    | none => extractBlock name rest

/-- Modelled from the spec (section 4.1 matching rule, for comparison with
`extractBlock`): the block body ends at the first following line consisting
solely of a right brace, i.e. at the first newline that is immediately
followed by a right brace which ends its line. -/
def captureSpec : List Char → Option (List Char)
  | [] => none
  | c :: rest =>
    if c = '\n' then
      match rest with
      | [] => none
      | c2 :: rest2 =>
        if c2 = rbrace && (rest2.isEmpty || rest2.head? = some '\n') then some []
        else (captureSpec rest).map (fun b => c :: b)
    else (captureSpec rest).map (fun b => c :: b)

/-- Modelled from the spec: block extraction whose body runs up to the first
line consisting solely of a right brace (same header matching and leftmost
rule as the code's `extractBlock`, differing only in where the body ends). -/
def specExtractBlock (name : List Char) : List Char → Option (List Char)
  | [] => (headerMatchAt name []).bind captureSpec
  | c :: rest =>
    match (headerMatchAt name (c :: rest)).bind captureSpec with
    | some b => some b
    | none => specExtractBlock name rest

/-- Lazy `[\s\S]*?^}` tail of the block-enumeration regex: consume up to and
including the first right brace that starts a line (a position preceded by a
newline); return the remainder after that brace. -/
def findClose : List Char → Option (List Char)
  | [] => none
  | [_] => none
  | c :: c2 :: rest =>
    if c = '\n' && c2 = rbrace then some rest else findClose (c2 :: rest)

/-- One attempt of `^(\w+)\s*{[\s\S]*?^}` at a line-start position: greedy
word run (nonempty), `\s*`, left brace, then `findClose`; returns the
captured name and the remainder after the whole match. -/
def headerAllAt (s : List Char) : Option (List Char × List Char) :=
  let nm := s.takeWhile isWordChar
  if nm.isEmpty then none
  else
    let t := (s.drop nm.length).dropWhile isWsChar
    if t.head? = some lbrace then (findClose t.tail).map (fun after => (nm, after))
    else none

theorem findClose_length {r : List Char} :
    ∀ {l : List Char}, findClose l = some r → r.length < l.length := by
  intro l
  induction l with
  | nil => intro h; simp [findClose] at h
  | cons c tl ih =>
    intro h
    match tl, h with
    | [], h => simp [findClose] at h
    | c2 :: rest, h =>
      rw [findClose] at h
      by_cases hc : (c = '\n' && c2 = rbrace) = true
      · rw [if_pos hc] at h
        cases h
        simp only [List.length_cons]
        omega
      · rw [if_neg hc] at h
        have := ih h
        simp only [List.length_cons] at this ⊢
        omega

theorem dropWhileLenLe (p : Char → Bool) (l : List Char) :
    (l.dropWhile p).length ≤ l.length := by
  induction l with
  | nil => simp
  | cons a l ih =>
    rw [List.dropWhile_cons]
    cases hpa : p a <;> simp [hpa] <;> omega

theorem headerAllAt_length {s nm after : List Char}
    (h : headerAllAt s = some (nm, after)) : after.length < s.length := by
  simp only [headerAllAt] at h
  by_cases he : (s.takeWhile isWordChar).isEmpty = true
  · simp [he] at h
  · rw [if_neg he] at h
    rcases htc : (s.drop (s.takeWhile isWordChar).length).dropWhile isWsChar
      with - | ⟨c0, tl⟩
    · rw [htc] at h; simp at h
    · rw [htc] at h
      simp only [List.head?_cons, List.tail_cons] at h
      by_cases hc : c0 = lbrace
      · rw [if_pos (by rw [hc])] at h
        cases hf : findClose tl with
        | none => rw [hf] at h; simp at h
        | some r =>
          rw [hf] at h
          rw [show Option.map (fun a => (s.takeWhile isWordChar, a)) (some r)
                = some (s.takeWhile isWordChar, r) from rfl] at h
          have hr : after = r := by
            have hp := Option.some.inj h
            have := congrArg Prod.snd hp
            simpa using this.symm
          subst hr
          have h1 : after.length < tl.length := findClose_length hf
          have h2 : (c0 :: tl).length ≤ (s.drop (s.takeWhile isWordChar).length).length := by
            rw [← htc]; exact dropWhileLenLe _ _
          have h3 : (s.drop (s.takeWhile isWordChar).length).length ≤ s.length := by
            rw [List.length_drop]; omega
          simp only [List.length_cons] at h2
          omega
      · rw [if_neg (by simp [hc])] at h; simp at h

/-- `[...file.matchAll(/^(\w+)\s*{[\s\S]*?^}/gm)].map(m => m[1])`: scan left
to right; a match may only start at a line-start position; after a match the
search resumes after the consumed text (`g` flag).  `atStart` records whether
the current position begins a line. -/
def allHeaderNames (s : List Char) (atStart : Bool) : List (List Char) :=
  match s with
  | [] => []
  | c :: rest =>
    if atStart then
      match h : headerAllAt (c :: rest) with
      | some (nm, after) => nm :: allHeaderNames after false
      | none => allHeaderNames rest (c = '\n')
    else allHeaderNames rest (c = '\n')
termination_by s.length
decreasing_by
  · exact headerAllAt_length h
  · simp
  · simp

/-- Block names enumerated by `run all` (both revisions use equivalent
patterns: `[a-zA-Z0-9_]+` in revision 1, `\w+` in revision 2). -/
def blockNamesAll (content : String) : List String :=
  (allHeaderNames content.data true).map (fun l => String.mk l)

/-- First character of a (nonempty) trimmed line. -/
def lineSymbol (l : List Char) : Char := l.headD ' '

/-- `match[1].split("\n").map(l => l.trim()).filter(l => l && /[$%@]/.test(l[0]))`. -/
def classifyLines (body : List Char) : List (List Char) :=
  ((splitLines body).map trimChars).filter fun l =>
    !l.isEmpty && (lineSymbol l == '$' || lineSymbol l == '%' || lineSymbol l == '@')

/-- The `@`-line rewrite applied by both revisions: `cmd = `cmd /k "${cmd}"``. -/
def winWrap (c : List Char) : List Char :=
  ("cmd /k \"").data ++ c ++ ['\"']

/-- Modelled from the spec (section 4.3, for comparison with the code's
unconditional `winWrap`): a platform-conditional wrapped-interactive rewrite
that applies the Windows `cmd /k` wrapper only on Windows and degrades to the
plain unwrapped command elsewhere. -/
def specWrap (isWin : Bool) (cmd : String) : String :=
  if isWin then "cmd /k \"" ++ cmd ++ "\"" else cmd

example : splitLines ("a\nb").data = [['a'], ['b']] := by decide
example : trimChars ("  % x ").data = ['%', ' ', 'x'] := by decide
example : extractBlock ("dev").data ("dev \x7b\n% a\n\x7d").data = some ("\n% a\n").data := by decide
example : specExtractBlock ("dev").data ("dev \x7b\n$ e \x7dx\n\x7d\n").data = some ("\n$ e \x7dx").data := by decide

/-- Observable result of one CLI operation: final `.blocks` file state,
console messages in order, process exit code, the command strings passed to
`spawn` in order, the block names actually started (`run`), the pids
signalled (`kill`), and whether the invocation died on an uncaught
exception. -/
structure OpResult where
  rf : RegFile
  msgs : List String
  code : Nat
  spawned : List String
  started : List String
  attempts : List Nat
  crashed : Bool
  deriving DecidableEq, Repr

/-- Revision 1 per-line loop of `handleRun`: classify the leading symbol,
rewrite an `@` command with `winWrap`, spawn (consuming one oracle index per
line), and record the pid when the line is tracked (symbol not `$`) and
`proc.pid` is truthy.  Returns (pids, spawned commands, next spawn index). -/
def procLines1 (oracle : Nat → Option Nat) :
    List (List Char) → Nat → List Nat × List String × Nat
  | [], i => ([], [], i)
  | l :: rest, i =>
    let sym := lineSymbol l
    let cmd0 := trimChars (l.drop 1)
    let cmd := if sym == '@' then winWrap cmd0 else cmd0
    let pid := oracle i
    let (ps, cs, i') := procLines1 oracle rest (i + 1)
    match pid with
    | none => (ps, String.mk cmd :: cs, i')
    | some p => ((if sym == '$' then ps else p :: ps), String.mk cmd :: cs, i')

/-- Revision 2 per-line loop: same pid logic as revision 1, but a falsy
`child.pid` additionally reports `Failed to start "<cmd>"`.  Returns
(pids, spawned commands, messages, next spawn index). -/
def procLines2 (oracle : Nat → Option Nat) :
    List (List Char) → Nat → List Nat × List String × List String × Nat
  | [], i => ([], [], [], i)
  | l :: rest, i =>
    let sym := lineSymbol l
    let cmd0 := trimChars (l.drop 1)
    let cmd := if sym == '@' then winWrap cmd0 else cmd0
    let pid := oracle i
    let (ps, cs, ms, i') := procLines2 oracle rest (i + 1)
    match pid with
    | none => (ps, String.mk cmd :: cs,
        ("Failed to start \"" ++ String.mk cmd ++ "\"") :: ms, i')
    | some p => ((if sym == '$' then ps else p :: ps), String.mk cmd :: cs, ms, i')

/-- Accumulator for the per-block loop of `run`: the in-memory `blocks`
object, blocks started so far, messages, spawned commands, spawn index. -/
structure RunAcc where
  blocks : Registry
  started : List String
  msgs : List String
  spawned : List String
  idx : Nat
  deriving Repr

/-- Revision 1 `handleRun` body for one block name: duplicate guard on
registry presence, block extraction, line processing, and the
`if (pids.length) blocks[blkName] = pids` update. -/
def runBlock1 (content : List Char) (oracle : Nat → Option Nat)
    (acc : RunAcc) (name : String) : RunAcc :=
  if (lookupReg acc.blocks name).isSome then
    { acc with msgs := acc.msgs ++ ["Block \"" ++ name ++ "\" already running."] }
  else
    match extractBlock name.data content with
    | none => { acc with msgs := acc.msgs ++ ["No block \"" ++ name ++ "\" found."] }
    | some body =>
      let lines := classifyLines body
      let r := procLines1 oracle lines acc.idx
      let acc' := { acc with spawned := acc.spawned ++ r.2.1, idx := r.2.2 }
      if r.1.isEmpty then acc'
      else { acc' with blocks := insertReg acc'.blocks name r.1,
                       started := acc'.started ++ [name] }

/-- Revision 2 per-block body: like revision 1 but the duplicate guard
reports the tracked pids, the not-found message differs, and per-line launch
failures are reported. -/
def runBlock2 (content : List Char) (oracle : Nat → Option Nat)
    (acc : RunAcc) (name : String) : RunAcc :=
  if (lookupReg acc.blocks name).isSome then
    { acc with msgs := acc.msgs ++
        ["Block \"" ++ name ++ "\" is already running (PIDs: " ++
         String.intercalate ", " (((lookupReg acc.blocks name).getD []).map toString) ++ ")"] }
  else
    match extractBlock name.data content with
    | none => { acc with msgs := acc.msgs ++ ["No \"" ++ name ++ "\" block found in Blocfile"] }
    | some body =>
      let lines := classifyLines body
      let r := procLines2 oracle lines acc.idx
      let acc' := { acc with spawned := acc.spawned ++ r.2.1,
                             msgs := acc.msgs ++ r.2.2.1, idx := r.2.2.2 }
      if r.1.isEmpty then acc'
      else { acc' with blocks := insertReg acc'.blocks name r.1,
                       started := acc'.started ++ [name] }

/-- Revision 1 `handleRun`: missing Blocfile only prints an error (no
`process.exit`), an absent `.blocks` is first created as `{}`, block names
are the `all` enumeration or the single argument, and the registry is
written back only when at least one block started. -/
def handleRun (blocfile : Option String) (rf : RegFile) (arg : String)
    (oracle : Nat → Option Nat) : OpResult :=
  match blocfile with
  | none => ⟨rf, ["Blocfile not found."], 0, [], [], [], false⟩
  | some content =>
    let rf1 := if rfPresent rf then rf else RegFile.valid []
    let blocks := readBlocks rf1
    let names := if arg = "all" then blockNamesAll content else [arg]
    let acc := names.foldl (runBlock1 content.data oracle)
      ⟨blocks, [], [], [], 0⟩
    let rf2 := if acc.started.isEmpty then rf1 else RegFile.valid acc.blocks
    let endMsgs :=
      if arg = "all" then ["Started: [" ++ String.intercalate ", " acc.started ++ "]."]
      else []
    ⟨rf2, acc.msgs ++ endMsgs, 0, acc.spawned, acc.started, [], false⟩

/-- Revision 2 `run` command: an absent `.blocks` is created as `{}` and
read back *before* the Blocfile check; a missing Blocfile then exits with
code 1; an unparsable `.blocks` crashes (uncaught `JSON.parse` throw). -/
def run2 (blocfile : Option String) (rf : RegFile) (arg : String)
    (oracle : Nat → Option Nat) : OpResult :=
  let rf1 := if rfPresent rf then rf else RegFile.valid []
  match readBlocks2 rf1 with
  | Except.error _ => ⟨rf1, [], 1, [], [], [], true⟩
  | Except.ok blocks =>
    match blocfile with
    | none => ⟨rf1, ["Blocfile not found."], 1, [], [], [], false⟩
    | some content =>
      let names := if arg = "all" then blockNamesAll content else [arg]
      let acc := names.foldl (runBlock2 content.data oracle)
        ⟨blocks, [], [], [], 0⟩
      let rf2 := if acc.started.isEmpty then rf1 else RegFile.valid acc.blocks
      let endMsgs :=
        if arg = "all" then
          if acc.started.isEmpty then ["No blocks were started."]
          else ["Blocks [" ++ String.intercalate ", " acc.started ++ "] running."]
        else []
      ⟨rf2, acc.msgs ++ endMsgs, 0, acc.spawned, acc.started, [], false⟩

/-- Accumulator for the per-block loop of `kill`. -/
structure KillAcc where
  blocks : Registry
  msgs : List String
  attempts : List Nat
  deriving Repr

/-- Revision 1 `handleKill` body for one block name: every tracked pid is
signalled (failures caught and reported per pid), then the key is deleted
unconditionally. -/
def killBlock1 (termOk : Nat → Bool) (acc : KillAcc) (name : String) : KillAcc :=
  match lookupReg acc.blocks name with
  | none => { acc with msgs := acc.msgs ++ ["Block \"" ++ name ++ "\" not found."] }
  | some pids =>
    let fails := (pids.filter (fun p => !termOk p)).map
      (fun p => "Failed to kill PID " ++ toString p ++ ":")
    { blocks := eraseReg acc.blocks name,
      msgs := acc.msgs ++ fails ++ ["✓ Block \"" ++ name ++ "\" terminated."],
      attempts := acc.attempts ++ pids }

/-- Revision 2 per-block kill body (identical control flow; the not-found
message differs). -/
def killBlock2 (termOk : Nat → Bool) (acc : KillAcc) (name : String) : KillAcc :=
  match lookupReg acc.blocks name with
  | none => { acc with msgs := acc.msgs ++ ["Block \"" ++ name ++ "\" not found in .blocks"] }
  | some pids =>
    let fails := (pids.filter (fun p => !termOk p)).map
      (fun p => "Failed to kill PID " ++ toString p ++ ":")
    { blocks := eraseReg acc.blocks name,
      msgs := acc.msgs ++ fails ++ ["✓ Block \"" ++ name ++ "\" terminated."],
      attempts := acc.attempts ++ pids }

/-- Revision 1 `handleKill`: missing `.blocks` only prints an error (exit
code stays 0); afterwards the mapping is written back when nonempty and the
file is unlinked when empty. -/
def handleKill (rf : RegFile) (arg : String) (termOk : Nat → Bool) : OpResult :=
  if rfPresent rf then
    let blocks := readBlocks rf
    let toKill := if arg = "all" then blocks.map Prod.fst else [arg]
    let acc := toKill.foldl (killBlock1 termOk) ⟨blocks, [], []⟩
    let rf2 := if acc.blocks.isEmpty then RegFile.absent else RegFile.valid acc.blocks
    ⟨rf2, acc.msgs, 0, [], [], acc.attempts, false⟩
  else ⟨rf, ["No running blocks."], 0, [], [], [], false⟩

/-- Revision 2 `kill` command: missing `.blocks` exits with code 1; an
unparsable `.blocks` crashes; `kill all` on an empty mapping exits early
leaving the file untouched; otherwise like revision 1 plus a cleanup
message when the file is deleted. -/
def kill2 (rf : RegFile) (arg : String) (termOk : Nat → Bool) : OpResult :=
  if rfPresent rf then
    match readBlocks2 rf with
    | Except.error _ => ⟨rf, [], 1, [], [], [], true⟩
    | Except.ok blocks =>
      let toKill := if arg = "all" then blocks.map Prod.fst else [arg]
      if toKill.isEmpty then
        ⟨rf, ["No blocks are currently running."], 0, [], [], [], false⟩
      else
        let acc := toKill.foldl (killBlock2 termOk) ⟨blocks, [], []⟩
        let rf2 := if acc.blocks.isEmpty then RegFile.absent else RegFile.valid acc.blocks
        let extra := if acc.blocks.isEmpty then ["✓ All blocks cleared. Deleted .blocks"] else []
        ⟨rf2, acc.msgs ++ extra, 0, [], [], acc.attempts, false⟩
  else ⟨rf, [".blocks not found. Try to rerun \"blocrun run <block>\""], 1, [], [], [], false⟩

/-- Revision 1 `handleStatus` message for one block: probe each pid with
signal 0 and classify fully/partially/not running. -/
def statusBlock1 (alive : Nat → Bool) (blocks : Registry) (name : String) : String :=
  match lookupReg blocks name with
  | none => "✗ Block \"" ++ name ++ "\" not found."
  | some pids =>
    let r := pids.filter alive
    if r.length = pids.length then "✓ " ++ name ++ " is running"
    else if 0 < r.length then "~ " ++ name ++ " partially running"
    else "✗ " ++ name ++ " not running"

/-- Revision 2 `status` message for one block. -/
def statusBlock2 (alive : Nat → Bool) (blocks : Registry) (name : String) : String :=
  match lookupReg blocks name with
  | none => "✗ Block \"" ++ name ++ "\" not found in .blocks"
  | some pids =>
    let r := pids.filter alive
    if r.length = pids.length then
      "✓ Block \"" ++ name ++ "\" is running (" ++
        String.intercalate ", " (pids.map toString) ++ ")"
    else if 0 < r.length then
      "~ Block \"" ++ name ++ "\" is partially running (" ++
        String.intercalate ", " (r.map toString) ++ ")"
    else "✗ Block \"" ++ name ++ "\" is not running"

/-- Revision 1 `handleStatus`: missing `.blocks` prints a note, exit code is
always 0. -/
def handleStatus (rf : RegFile) (arg : String) (alive : Nat → Bool) : OpResult :=
  if rfPresent rf then
    let blocks := readBlocks rf
    let toCheck := if arg = "all" then blocks.map Prod.fst else [arg]
    ⟨rf, toCheck.map (statusBlock1 alive blocks), 0, [], [], [], false⟩
  else ⟨rf, ["No blocks are running."], 0, [], [], [], false⟩

/-- Revision 2 `status` command: missing `.blocks` prints a note and exits
0; an unparsable `.blocks` crashes; an empty check list exits 0. -/
def status2 (rf : RegFile) (arg : String) (alive : Nat → Bool) : OpResult :=
  if rfPresent rf then
    match readBlocks2 rf with
    | Except.error _ => ⟨rf, [], 1, [], [], [], true⟩
    | Except.ok blocks =>
      let toCheck := if arg = "all" then blocks.map Prod.fst else [arg]
      if toCheck.isEmpty then ⟨rf, ["No blocks found."], 0, [], [], [], false⟩
      else ⟨rf, toCheck.map (statusBlock2 alive blocks), 0, [], [], [], false⟩
  else ⟨rf, ["No blocks are currently running."], 0, [], [], [], false⟩

example :
    (handleRun (some "dev \x7b\n  $ echo hi\n  % sleep 100\n  @ echo wrap\n\x7d")
      (RegFile.valid []) "dev" (fun i => some (101 + i))).rf
      = RegFile.valid [("dev", [102, 103])] := by decide

example :
    (run2 (some "dev \x7b\n  $ echo hi\n  % sleep 100\n  @ echo wrap\n\x7d")
      (RegFile.valid []) "dev" (fun i => some (101 + i))).spawned
      = ["echo hi", "sleep 100", "cmd /k \"echo wrap\""] := by decide

example :
    (handleKill (RegFile.valid [("dev", [5, 6])]) "dev" (fun _ => false)).rf
      = RegFile.absent := by decide

/-- Specification-side description of the pids a `run` records for a block
body: one pid per line whose symbol is not `$` and whose spawn produced a
pid, in source order; line `k` of the block consumes spawn index `i + k`
(every recognized line is spawned, `$` lines included). -/
def trackedPidsSpec (oracle : Nat → Option Nat) : Nat → List (List Char) → List Nat
  | _, [] => []
  | i, l :: rest =>
    (if lineSymbol l == '$' then [] else (oracle i).toList)
      ++ trackedPidsSpec oracle (i + 1) rest

/-- Specification-side description of the command strings a `run` passes to
`spawn` for a block body: the trimmed text after the symbol, wrapped with
`cmd /k "…"` exactly when the symbol is `@`. -/
def launchCmds (lines : List (List Char)) : List String :=
  lines.map fun l =>
    String.mk (if lineSymbol l == '@' then winWrap (trimChars (l.drop 1))
               else trimChars (l.drop 1))

/-- No block of the mapping is tracked by an empty pid list. -/
def entriesNE (m : Registry) : Prop := ∀ e ∈ m, e.2 ≠ []

/-- Registry-file invariant of the spec, restricted to the part the code
maintains: a present, parsable file has no empty pid list. -/
def rfGood : RegFile → Prop
  | RegFile.valid m => entriesNE m
  | _ => True

theorem lookup_insert (m : Registry) (k : String) (v : List Nat) :
    lookupReg (insertReg m k v) k = some v := by
  induction m with
  | nil => simp [insertReg, lookupReg]
  | cons e rest ih =>
    obtain ⟨k', v'⟩ := e
    by_cases hk : k' = k
    · simp [insertReg, hk, lookupReg]
    · simp [insertReg, hk, lookupReg, ih]

theorem lookup_erase (m : Registry) (k : String) :
    lookupReg (eraseReg m k) k = none := by
  induction m with
  | nil => simp [eraseReg, lookupReg]
  | cons e rest ih =>
    obtain ⟨k', v'⟩ := e
    by_cases hk : k' = k
    · simp [eraseReg, hk, ih]
    · simp [eraseReg, hk, lookupReg, ih]

theorem entriesNE_insert {m : Registry} {k : String} {v : List Nat}
    (hm : entriesNE m) (hv : v ≠ []) : entriesNE (insertReg m k v) := by
  induction m with
  | nil =>
    intro e he
    simp [insertReg] at he
    subst he; exact hv
  | cons e0 rest ih =>
    obtain ⟨k', v'⟩ := e0
    have hrest : entriesNE rest := fun e he => hm e (List.mem_cons_of_mem _ he)
    by_cases hk : k' = k
    · intro e he
      simp only [insertReg, if_pos hk] at he
      rcases List.mem_cons.mp he with h1 | h2
      · subst h1; exact hv
      · exact hrest e h2
    · intro e he
      simp only [insertReg, if_neg hk] at he
      rcases List.mem_cons.mp he with h1 | h2
      · subst h1; exact hm (k', v') (List.mem_cons_self _ _)
      · exact ih hrest e h2

theorem entriesNE_erase {m : Registry} {k : String}
    (hm : entriesNE m) : entriesNE (eraseReg m k) := by
  induction m with
  | nil => intro e he; simp [eraseReg] at he
  | cons e0 rest ih =>
    obtain ⟨k', v'⟩ := e0
    have hrest : entriesNE rest := fun e he => hm e (List.mem_cons_of_mem _ he)
    by_cases hk : k' = k
    · simpa [eraseReg, hk] using ih hrest
    · intro e he
      simp only [eraseReg, if_neg hk] at he
      rcases List.mem_cons.mp he with h1 | h2
      · subst h1; exact hm (k', v') (List.mem_cons_self _ _)
      · exact ih hrest e h2

theorem procLines1_eq (oracle : Nat → Option Nat) :
    ∀ (lines : List (List Char)) (i : Nat),
      (procLines1 oracle lines i).1 = trackedPidsSpec oracle i lines ∧
      (procLines1 oracle lines i).2.1 = launchCmds lines := by
  intro lines
  induction lines with
  | nil => intro i; simp [procLines1, trackedPidsSpec, launchCmds]
  | cons l rest ih =>
    intro i
    obtain ⟨ih1, ih2⟩ := ih (i + 1)
    rcases hrec : procLines1 oracle rest (i + 1) with ⟨ps, cs, i'⟩
    rw [hrec] at ih1 ih2
    simp only at ih1 ih2
    cases hpid : oracle i with
    | none =>
      simp [procLines1, hrec, hpid, trackedPidsSpec, launchCmds, ih1, ih2,
        Option.toList]
    | some p =>
      by_cases hsym : (lineSymbol l == '$') = true
      · simp [procLines1, hrec, hpid, hsym, trackedPidsSpec, launchCmds, ih1, ih2,
          Option.toList]
      · simp only [Bool.not_eq_true] at hsym
        simp [procLines1, hrec, hpid, hsym, trackedPidsSpec, launchCmds, ih1, ih2,
          Option.toList]

theorem procLines2_eq (oracle : Nat → Option Nat) :
    ∀ (lines : List (List Char)) (i : Nat),
      (procLines2 oracle lines i).1 = trackedPidsSpec oracle i lines ∧
      (procLines2 oracle lines i).2.1 = launchCmds lines := by
  intro lines
  induction lines with
  | nil => intro i; simp [procLines2, trackedPidsSpec, launchCmds]
  | cons l rest ih =>
    intro i
    obtain ⟨ih1, ih2⟩ := ih (i + 1)
    rcases hrec : procLines2 oracle rest (i + 1) with ⟨ps, cs, ms, i'⟩
    rw [hrec] at ih1 ih2
    simp only at ih1 ih2
    cases hpid : oracle i with
    | none =>
      simp [procLines2, hrec, hpid, trackedPidsSpec, launchCmds, ih1, ih2,
        Option.toList]
    | some p =>
      by_cases hsym : (lineSymbol l == '$') = true
      · simp [procLines2, hrec, hpid, hsym, trackedPidsSpec, launchCmds, ih1, ih2,
          Option.toList]
      · simp only [Bool.not_eq_true] at hsym
        simp [procLines2, hrec, hpid, hsym, trackedPidsSpec, launchCmds, ih1, ih2,
          Option.toList]

theorem entriesNE_nil : entriesNE [] := by
  intro e he
  simp at he

theorem readBlocks_entriesNE {rf : RegFile} (h : rfGood rf) :
    entriesNE (readBlocks rf) := by
  cases rf with
  | valid m => exact h
  | absent => exact entriesNE_nil
  | corrupt => exact entriesNE_nil

theorem runBlock1_entriesNE {content : List Char} {oracle : Nat → Option Nat}
    {acc : RunAcc} {name : String} (h : entriesNE acc.blocks) :
    entriesNE (runBlock1 content oracle acc name).blocks := by
  simp only [runBlock1]
  split
  · exact h
  · split
    · exact h
    · split
      · exact h
      · rename_i hne
        exact entriesNE_insert h (by simpa using hne)

theorem runBlock2_entriesNE {content : List Char} {oracle : Nat → Option Nat}
    {acc : RunAcc} {name : String} (h : entriesNE acc.blocks) :
    entriesNE (runBlock2 content oracle acc name).blocks := by
  simp only [runBlock2]
  split
  · exact h
  · split
    · exact h
    · split
      · exact h
      · rename_i hne
        exact entriesNE_insert h (by simpa using hne)

theorem foldl_runBlock1_entriesNE (content : List Char) (oracle : Nat → Option Nat) :
    ∀ (names : List String) (acc : RunAcc), entriesNE acc.blocks →
      entriesNE (names.foldl (runBlock1 content oracle) acc).blocks := by
  intro names
  induction names with
  | nil => intro acc h; exact h
  | cons n rest ih => intro acc h; exact ih _ (runBlock1_entriesNE h)

theorem foldl_runBlock2_entriesNE (content : List Char) (oracle : Nat → Option Nat) :
    ∀ (names : List String) (acc : RunAcc), entriesNE acc.blocks →
      entriesNE (names.foldl (runBlock2 content oracle) acc).blocks := by
  intro names
  induction names with
  | nil => intro acc h; exact h
  | cons n rest ih => intro acc h; exact ih _ (runBlock2_entriesNE h)

theorem killBlock1_entriesNE {termOk : Nat → Bool} {acc : KillAcc} {name : String}
    (h : entriesNE acc.blocks) : entriesNE (killBlock1 termOk acc name).blocks := by
  simp only [killBlock1]
  split
  · exact h
  · exact entriesNE_erase h

theorem killBlock2_entriesNE {termOk : Nat → Bool} {acc : KillAcc} {name : String}
    (h : entriesNE acc.blocks) : entriesNE (killBlock2 termOk acc name).blocks := by
  simp only [killBlock2]
  split
  · exact h
  · exact entriesNE_erase h

theorem foldl_killBlock1_entriesNE (termOk : Nat → Bool) :
    ∀ (names : List String) (acc : KillAcc), entriesNE acc.blocks →
      entriesNE (names.foldl (killBlock1 termOk) acc).blocks := by
  intro names
  induction names with
  | nil => intro acc h; exact h
  | cons n rest ih => intro acc h; exact ih _ (killBlock1_entriesNE h)

theorem foldl_killBlock2_entriesNE (termOk : Nat → Bool) :
    ∀ (names : List String) (acc : KillAcc), entriesNE acc.blocks →
      entriesNE (names.foldl (killBlock2 termOk) acc).blocks := by
  intro names
  induction names with
  | nil => intro acc h; exact h
  | cons n rest ih => intro acc h; exact ih _ (killBlock2_entriesNE h)

/-- C1 (counterexample to the claim as stated): with no registry file and a
Blocfile that does not define the requested block, `handleRun` leaves behind
a present registry file holding the empty mapping `{}` (it pre-creates
`.blocks` before looking at the block), while no block is tracked — so "the
registry file is absent if and only if no block is tracked" fails. -/
theorem C1_counterexample :
    (handleRun (some "web \x7b\n% sleep 5\n\x7d\n") RegFile.absent "dev"
        (fun _ => none)).rf = RegFile.valid [] ∧
    RegFile.valid [] ≠ RegFile.absent := by
  constructor
  · decide
  · decide


theorem rfGood_ite {p : Prop} [Decidable p] {x y : RegFile}
    (hx : rfGood x) (hy : rfGood y) : rfGood (if p then x else y) := by
  split
  · exact hx
  · exact hy

theorem rfGood_absent : rfGood RegFile.absent := trivial

theorem rfGood_rf_ite {c : Prop} [Decidable c] {x y : OpResult}
    (hx : rfGood x.rf) (hy : rfGood y.rf) : rfGood ((if c then x else y).rf) := by
  split
  · exact hx
  · exact hy

theorem rfGood_valid {m : Registry} (h : entriesNE m) : rfGood (RegFile.valid m) := h

theorem ne_nil_of_ite {c : Prop} [Decidable c] {B m : Registry}
    (hiff : c ↔ B = [])
    (hm : (if c then RegFile.absent else RegFile.valid B) = RegFile.valid m) :
    m ≠ [] := by
  by_cases hb : c
  · rw [if_pos hb] at hm
    exact absurd hm (by simp)
  · rw [if_neg hb] at hm
    have hBm := RegFile.valid.inj hm
    subst hBm
    intro hnil
    exact hb (hiff.mpr hnil)

/-- C1 (amended): after any `run` or `kill` of either revision, a present
parsable registry file maps no block to an empty pid list; `kill` never
leaves a present file with an empty mapping (revision 1 unconditionally,
revision 2 except for the no-op `kill all` on an already-empty `{}`
mapping, which exits early leaving the file untouched).  The original
claim's "absent file iff nothing tracked" fails because `run` pre-creates
an empty `{}` registry file (see the counterexample). -/
theorem C1_theorem :
    (∀ bf rf arg oracle, rfGood rf → rfGood (handleRun bf rf arg oracle).rf) ∧
    (∀ bf rf arg oracle, rfGood rf → rfGood (run2 bf rf arg oracle).rf) ∧
    (∀ rf arg termOk, rfGood rf → rfGood (handleKill rf arg termOk).rf) ∧
    (∀ rf arg termOk m, (handleKill rf arg termOk).rf = RegFile.valid m → m ≠ []) ∧
    (∀ rf arg termOk, rfGood rf → rfGood (kill2 rf arg termOk).rf) ∧
    (∀ m arg termOk, ¬(arg = "all" ∧ m = []) →
      ∀ m', (kill2 (RegFile.valid m) arg termOk).rf = RegFile.valid m' → m' ≠ []) := by
  refine ⟨?_, ?_, ?_, ?_, ?_, ?_⟩
  · intro bf rf arg oracle hg
    cases bf with
    | none => simpa [handleRun] using hg
    | some content =>
      have hrf1g : rfGood (if rfPresent rf = true then rf else RegFile.valid []) :=
        rfGood_ite hg entriesNE_nil
      simp only [handleRun]
      exact rfGood_ite hrf1g
        (foldl_runBlock1_entriesNE _ _ _ _ (readBlocks_entriesNE hrf1g))
  · intro bf rf arg oracle hg
    cases rf with
    | corrupt => simp [run2, rfPresent, readBlocks2, rfGood]
    | absent =>
      cases bf with
      | none => simpa [run2, rfPresent, readBlocks2] using entriesNE_nil
      | some content =>
        simp [run2, rfPresent, readBlocks2]
        exact rfGood_ite (rfGood_valid entriesNE_nil)
          (rfGood_valid (foldl_runBlock2_entriesNE _ _ _ _ entriesNE_nil))
    | valid m =>
      cases bf with
      | none => simpa [run2, rfPresent, readBlocks2] using hg
      | some content =>
        simp only [run2, rfPresent, readBlocks2, if_pos rfl]
        exact rfGood_ite hg (foldl_runBlock2_entriesNE _ _ _ _ hg)
  · intro rf arg termOk hg
    cases hp : rfPresent rf with
    | false => simpa [handleKill, hp] using hg
    | true =>
      simp only [handleKill, hp, if_pos rfl]
      exact rfGood_ite True.intro
        (foldl_killBlock1_entriesNE _ _ _ (readBlocks_entriesNE hg))
  · intro rf arg termOk m hm
    cases hp : rfPresent rf with
    | false =>
      cases rf with
      | absent => simp [handleKill, rfPresent] at hm
      | corrupt => simp [rfPresent] at hp
      | valid m0 => simp [rfPresent] at hp
    | true =>
      simp only [handleKill, hp, if_pos rfl] at hm
      exact ne_nil_of_ite (by simp) hm
  · intro rf arg termOk hg
    cases rf with
    | absent => simpa [kill2, rfPresent] using hg
    | corrupt => simp [kill2, rfPresent, readBlocks2, rfGood]
    | valid m =>
      have hgm : entriesNE m := hg
      simp only [kill2, rfPresent, readBlocks2]
      exact rfGood_rf_ite
        (rfGood_rf_ite hg
          (rfGood_ite rfGood_absent
            (rfGood_valid (foldl_killBlock2_entriesNE _ _ _ hgm))))
        hg
  · intro m arg termOk hne m' hm
    have hnil : ¬((if arg = "all" then m.map Prod.fst else [arg]).isEmpty = true) := by
      by_cases ha : arg = "all"
      · simp [ha]
        intro hmm
        exact hne ⟨ha, hmm⟩
      · simp [ha]
    simp only [kill2, rfPresent, readBlocks2, if_pos rfl, if_neg hnil] at hm
    exact ne_nil_of_ite (by simp) hm

/-- C1 witness: concrete instance of the amended preservation statement. -/
theorem C1_witness :
    rfGood (handleRun (some "a \x7b\n% x\n\x7d") (RegFile.valid [("b", [1])]) "a"
      (fun _ => some 9)).rf :=
  C1_theorem.1 (some "a \x7b\n% x\n\x7d") (RegFile.valid [("b", [1])]) "a"
    (fun _ => some 9) (by intro e he; simp at he; subst he; simp)

/-- C2 (counterexample to the claim as stated): revision 1's duplicate-run
guard message for a block tracked with pid 42 is exactly
`Block "dev" already running.` — it does not report the tracked pids (no
message contains the digit string `42`). -/
theorem C2_counterexample :
    (handleRun (some "dev \x7b\n% sleep 1\n\x7d") (RegFile.valid [("dev", [42])])
        "dev" (fun _ => none)).msgs = ["Block \"dev\" already running."] ∧
    ¬ List.IsInfix ("42").data ("Block \"dev\" already running.").data := by
  constructor
  · decide
  · decide

/-- C2 (amended): when the block is already registered, `run(name)` of
either revision spawns nothing and leaves the registry file (hence the
block's entry) unchanged; revision 2 reports the tracked pids in its
informational message, while revision 1 reports only "already running"
without the pids. -/
theorem C2_theorem :
    ∀ (content : String) (m : Registry) (name : String) (pids : List Nat)
      (oracle : Nat → Option Nat), name ≠ "all" → lookupReg m name = some pids →
      ((handleRun (some content) (RegFile.valid m) name oracle).rf = RegFile.valid m ∧
       (handleRun (some content) (RegFile.valid m) name oracle).spawned = [] ∧
       (handleRun (some content) (RegFile.valid m) name oracle).msgs
         = ["Block \"" ++ name ++ "\" already running."] ∧
       (run2 (some content) (RegFile.valid m) name oracle).rf = RegFile.valid m ∧
       (run2 (some content) (RegFile.valid m) name oracle).spawned = [] ∧
       (run2 (some content) (RegFile.valid m) name oracle).msgs
         = ["Block \"" ++ name ++ "\" is already running (PIDs: "
            ++ String.intercalate ", " (pids.map toString) ++ ")"]) := by
  intro content m name pids oracle hna hlk
  have hsome : (lookupReg m name).isSome = true := by rw [hlk]; rfl
  refine ⟨?_, ?_, ?_, ?_, ?_, ?_⟩ <;>
    simp [handleRun, run2, readBlocks, readBlocks2, rfPresent, hna, runBlock1,
      runBlock2, hsome, hlk]

/-- C2 witness: concrete instance of the amended duplicate-guard statement. -/
theorem C2_witness :
    (run2 (some "dev \x7b\n% sleep 1\n\x7d") (RegFile.valid [("dev", [42])])
        "dev" (fun _ => none)).rf = RegFile.valid [("dev", [42])] :=
  (C2_theorem ("dev \x7b\n% sleep 1\n\x7d") [("dev", [42])] "dev" [42]
    (fun _ => none) (by decide) (by decide)).2.2.2.1

/-- C3 (confirmed): for every registered block and every outcome of the
per-pid termination attempts, `kill(name)` of either revision signals every
tracked pid (none is skipped), reports each failing pid individually, and
removes the block from the registry before returning. -/
theorem C3_theorem :
    ∀ (m : Registry) (name : String) (pids : List Nat) (termOk : Nat → Bool),
      name ≠ "all" → lookupReg m name = some pids →
      (lookupReg (mappingOf (handleKill (RegFile.valid m) name termOk).rf) name = none ∧
       (handleKill (RegFile.valid m) name termOk).attempts = pids ∧
       (∀ p ∈ pids, termOk p = false →
          ("Failed to kill PID " ++ toString p ++ ":")
            ∈ (handleKill (RegFile.valid m) name termOk).msgs) ∧
       lookupReg (mappingOf (kill2 (RegFile.valid m) name termOk).rf) name = none ∧
       (kill2 (RegFile.valid m) name termOk).attempts = pids ∧
       (∀ p ∈ pids, termOk p = false →
          ("Failed to kill PID " ++ toString p ++ ":")
            ∈ (kill2 (RegFile.valid m) name termOk).msgs)) := by
  intro m name pids termOk hna hlk
  have hmem : ∀ p ∈ pids, termOk p = false →
      ("Failed to kill PID " ++ toString p ++ ":")
        ∈ (pids.filter (fun p => !termOk p)).map
            (fun p => "Failed to kill PID " ++ toString p ++ ":") := by
    intro p hp hf
    exact List.mem_map.mpr ⟨p, List.mem_filter.mpr ⟨hp, by simp [hf]⟩, rfl⟩
  refine ⟨?_, ?_, ?_, ?_, ?_, ?_⟩
  · by_cases hemp : (eraseReg m name).isEmpty = true
    · simp [handleKill, rfPresent, readBlocks, hna, killBlock1, hlk, hemp,
        mappingOf, lookupReg]
    · simp [handleKill, rfPresent, readBlocks, hna, killBlock1, hlk, hemp,
        mappingOf, lookup_erase]
  · simp [handleKill, rfPresent, readBlocks, hna, killBlock1, hlk]
  · intro p hp hf
    have := hmem p hp hf
    simp [handleKill, rfPresent, readBlocks, hna, killBlock1, hlk]
    left
    simpa using this
  · by_cases hemp : (eraseReg m name).isEmpty = true
    · simp [kill2, rfPresent, readBlocks2, hna, killBlock2, hlk, hemp,
        mappingOf, lookupReg]
    · simp [kill2, rfPresent, readBlocks2, hna, killBlock2, hlk, hemp,
        mappingOf, lookup_erase]
  · simp [kill2, rfPresent, readBlocks2, hna, killBlock2, hlk]
  · intro p hp hf
    have := hmem p hp hf
    simp [kill2, rfPresent, readBlocks2, hna, killBlock2, hlk]
    left
    simpa using this

/-- C3 witness: concrete instance — both tracked pids fail to terminate,
yet the block is deregistered. -/
theorem C3_witness :
    lookupReg (mappingOf (handleKill (RegFile.valid [("dev", [5, 6])]) "dev"
      (fun _ => false)).rf) "dev" = none :=
  (C3_theorem [("dev", [5, 6])] "dev" [5, 6] (fun _ => false)
    (by decide) (by decide)).1

/-- C4 (counterexample to the claim as stated): the registry file is absent,
the Blocfile defines the block but the spawn yields no pid, so no tracked
pid is recorded — yet the persisted registry state changed: `run`
pre-created the file holding the empty mapping `{}`. -/
theorem C4_counterexample :
    (handleRun (some "dev \x7b\n% sleep 100\n\x7d") RegFile.absent "dev"
        (fun _ => none)).started = [] ∧
    (handleRun (some "dev \x7b\n% sleep 100\n\x7d") RegFile.absent "dev"
        (fun _ => none)).rf = RegFile.valid [] ∧
    RegFile.valid [] ≠ RegFile.absent := by
  refine ⟨?_, ?_, ?_⟩
  · decide
  · decide
  · decide

/-- C4 (amended): a run that starts no block leaves an *existing* registry
file unchanged (no write occurs); but when the registry file is absent, run
first creates it containing the empty mapping — revision 1 only when the
Blocfile exists, revision 2 even when the Blocfile is missing — which is a
persistence change. -/
theorem C4_theorem :
    (∀ bf m arg oracle, (handleRun bf (RegFile.valid m) arg oracle).started = [] →
        (handleRun bf (RegFile.valid m) arg oracle).rf = RegFile.valid m) ∧
    (∀ bf m arg oracle, (run2 bf (RegFile.valid m) arg oracle).started = [] →
        (run2 bf (RegFile.valid m) arg oracle).rf = RegFile.valid m) ∧
    (∀ arg oracle, (handleRun none RegFile.absent arg oracle).rf = RegFile.absent) ∧
    (∀ content arg oracle,
        (handleRun (some content) RegFile.absent arg oracle).started = [] →
        (handleRun (some content) RegFile.absent arg oracle).rf = RegFile.valid []) ∧
    (∀ bf arg oracle, (run2 bf RegFile.absent arg oracle).started = [] →
        (run2 bf RegFile.absent arg oracle).rf = RegFile.valid []) := by
  refine ⟨?_, ?_, ?_, ?_, ?_⟩
  · intro bf m arg oracle h
    cases bf with
    | none => rfl
    | some content =>
      simp only [handleRun] at h ⊢
      simp [rfPresent] at h ⊢
      intro hc
      exact absurd h hc
  · intro bf m arg oracle h
    cases bf with
    | none => rfl
    | some content =>
      simp only [run2, rfPresent, readBlocks2] at h ⊢
      simp at h ⊢
      intro hc
      exact absurd h hc
  · intro arg oracle
    rfl
  · intro content arg oracle h
    simp only [handleRun] at h ⊢
    simp [rfPresent] at h ⊢
    intro hc
    exact absurd h hc
  · intro bf arg oracle h
    cases bf with
    | none => rfl
    | some content =>
      simp only [run2, rfPresent, readBlocks2] at h ⊢
      simp at h ⊢
      intro hc
      exact absurd h hc

/-- C4 witness: concrete instance of the amended frame statement — the
block is not defined, the existing registry file is untouched. -/
theorem C4_witness :
    (handleRun (some "web \x7b\n% x\n\x7d") (RegFile.valid [("a", [1])]) "dev"
        (fun _ => none)).rf = RegFile.valid [("a", [1])] :=
  C4_theorem.1 (some "web \x7b\n% x\n\x7d") [("a", [1])] "dev" (fun _ => none)
    (by decide)

theorem handleRun_single {content : String} {m : Registry} {name : String}
    {oracle : Nat → Option Nat} {body : List Char}
    (hna : name ≠ "all") (hlk : lookupReg m name = none)
    (hex : extractBlock name.data content.data = some body) :
    handleRun (some content) (RegFile.valid m) name oracle =
      if (trackedPidsSpec oracle 0 (classifyLines body)).isEmpty = true then
        ⟨RegFile.valid m, [], 0, launchCmds (classifyLines body), [], [], false⟩
      else
        ⟨RegFile.valid
            (insertReg m name (trackedPidsSpec oracle 0 (classifyLines body))),
          [], 0, launchCmds (classifyLines body), [name], [], false⟩ := by
  have hp := procLines1_eq oracle (classifyLines body) 0
  rcases hrec : procLines1 oracle (classifyLines body) 0 with ⟨ps, cs, i'⟩
  rw [hrec] at hp
  obtain ⟨hps, hcs⟩ := hp
  simp only at hps hcs
  subst hps
  subst hcs
  by_cases hemp : (trackedPidsSpec oracle 0 (classifyLines body)).isEmpty = true
  · simp [handleRun, rfPresent, readBlocks, hna, runBlock1, hlk, hex, hrec, hemp]
  · simp [handleRun, rfPresent, readBlocks, hna, runBlock1, hlk, hex, hrec, hemp]

theorem run2_single {content : String} {m : Registry} {name : String}
    {oracle : Nat → Option Nat} {body : List Char}
    (hna : name ≠ "all") (hlk : lookupReg m name = none)
    (hex : extractBlock name.data content.data = some body) :
    run2 (some content) (RegFile.valid m) name oracle =
      if (trackedPidsSpec oracle 0 (classifyLines body)).isEmpty = true then
        ⟨RegFile.valid m, (procLines2 oracle (classifyLines body) 0).2.2.1, 0,
          launchCmds (classifyLines body), [], [], false⟩
      else
        ⟨RegFile.valid
            (insertReg m name (trackedPidsSpec oracle 0 (classifyLines body))),
          (procLines2 oracle (classifyLines body) 0).2.2.1, 0,
          launchCmds (classifyLines body), [name], [], false⟩ := by
  have hp := procLines2_eq oracle (classifyLines body) 0
  rcases hrec : procLines2 oracle (classifyLines body) 0 with ⟨ps, cs, ms, i'⟩
  rw [hrec] at hp
  obtain ⟨hps, hcs⟩ := hp
  simp only at hps hcs
  subst hps
  subst hcs
  by_cases hemp : (trackedPidsSpec oracle 0 (classifyLines body)).isEmpty = true
  · simp [run2, rfPresent, readBlocks2, hna, runBlock2, hlk, hex, hrec, hemp]
  · simp [run2, rfPresent, readBlocks2, hna, runBlock2, hlk, hex, hrec, hemp]

/-- C5 (confirmed): `run(name)` on an unregistered block records exactly the
pids of the successfully launched non-`$` lines, in source order (line `k`
consumes spawn index `k`); when that list is empty, no entry is recorded.
In particular, for a block with one `$`, one `%` and one `@` line whose
spawns all succeed, exactly the two pids of the `%` and `@` lines are
registered, never the `$` line's pid. -/
theorem C5_theorem :
    (∀ (content : String) (m : Registry) (name : String)
       (oracle : Nat → Option Nat) (body : List Char),
       name ≠ "all" → lookupReg m name = none →
       extractBlock name.data content.data = some body →
       (lookupReg (mappingOf
            (handleRun (some content) (RegFile.valid m) name oracle).rf) name
          = (if (trackedPidsSpec oracle 0 (classifyLines body)).isEmpty = true
             then none
             else some (trackedPidsSpec oracle 0 (classifyLines body))) ∧
        lookupReg (mappingOf
            (run2 (some content) (RegFile.valid m) name oracle).rf) name
          = (if (trackedPidsSpec oracle 0 (classifyLines body)).isEmpty = true
             then none
             else some (trackedPidsSpec oracle 0 (classifyLines body))))) ∧
    lookupReg (mappingOf
        (run2 (some "dev \x7b\n  $ echo hi\n  % sleep 100\n  @ echo wrap\n\x7d")
          (RegFile.valid []) "dev" (fun i => some (101 + i))).rf) "dev"
      = some [102, 103] := by
  constructor
  · intro content m name oracle body hna hlk hex
    constructor
    · rw [handleRun_single hna hlk hex]
      by_cases hemp : (trackedPidsSpec oracle 0 (classifyLines body)).isEmpty = true
      · simp [hemp, mappingOf, hlk]
      · simp [hemp, mappingOf, lookup_insert]
    · rw [run2_single hna hlk hex]
      by_cases hemp : (trackedPidsSpec oracle 0 (classifyLines body)).isEmpty = true
      · simp [hemp, mappingOf, hlk]
      · simp [hemp, mappingOf, lookup_insert]
  · decide

/-- C5 witness: concrete instance of the general tracked-pid statement for
revision 1 on the three-line scenario block. -/
theorem C5_witness :
    lookupReg (mappingOf
      (handleRun (some "dev \x7b\n  $ echo hi\n  % sleep 100\n  @ echo wrap\n\x7d")
        (RegFile.valid []) "dev" (fun i => some (101 + i))).rf) "dev"
      = (if (trackedPidsSpec (fun i => some (101 + i)) 0
              (classifyLines ("\n  $ echo hi\n  % sleep 100\n  @ echo wrap\n").data)).isEmpty
              = true
         then none
         else some (trackedPidsSpec (fun i => some (101 + i)) 0
              (classifyLines ("\n  $ echo hi\n  % sleep 100\n  @ echo wrap\n").data))) :=
  (C5_theorem.1 "dev \x7b\n  $ echo hi\n  % sleep 100\n  @ echo wrap\n\x7d" [] "dev"
    (fun i => some (101 + i)) ("\n  $ echo hi\n  % sleep 100\n  @ echo wrap\n").data
    (by decide) (by decide) (by decide)).1

/-- C7 (counterexample to the claim as stated): the specification-side
platform-conditional rewrite demands the unwrapped command `echo hi` on a
non-Windows platform, but the code's `run` (which never consults the
platform) passes the Windows-wrapped `cmd /k "echo hi"` to `spawn` for an
`@` line — it does not degrade to a plain launch of the unwrapped command. -/
theorem C7_counterexample :
    (handleRun (some "dev \x7b\n@ echo hi\n\x7d") (RegFile.valid []) "dev"
        (fun i => some (7 + i))).spawned = ["cmd /k \"echo hi\""] ∧
    specWrap false "echo hi" = "echo hi" ∧
    ("cmd /k \"echo hi\"" : String) ≠ "echo hi" := by
  refine ⟨?_, ?_, ?_⟩
  · decide
  · decide
  · decide

/-- C7 (amended): for every `@` line the command string is rewritten to
`cmd /k "<cmd>"` unconditionally — the launch path of both revisions takes
no platform input at all — and non-`@` lines are spawned as the trimmed
command unchanged; on platforms without `cmd` the wrapped command is
spawned as-is (and fails at the OS level) rather than degrading to the
unwrapped command. -/
theorem C7_theorem :
    ∀ (content : String) (m : Registry) (name : String)
      (oracle : Nat → Option Nat) (body : List Char),
      name ≠ "all" → lookupReg m name = none →
      extractBlock name.data content.data = some body →
      ((handleRun (some content) (RegFile.valid m) name oracle).spawned
         = launchCmds (classifyLines body) ∧
       (run2 (some content) (RegFile.valid m) name oracle).spawned
         = launchCmds (classifyLines body)) := by
  intro content m name oracle body hna hlk hex
  constructor
  · rw [handleRun_single hna hlk hex]
    by_cases hemp : (trackedPidsSpec oracle 0 (classifyLines body)).isEmpty = true
    · simp [hemp]
    · simp [hemp]
  · rw [run2_single hna hlk hex]
    by_cases hemp : (trackedPidsSpec oracle 0 (classifyLines body)).isEmpty = true
    · simp [hemp]
    · simp [hemp]

/-- C7 witness: concrete instance of the amended spawned-command statement. -/
theorem C7_witness :
    (run2 (some "dev \x7b\n@ code .\n\x7d") (RegFile.valid []) "dev"
        (fun _ => some 3)).spawned = launchCmds (classifyLines ("\n@ code .\n").data) :=
  (C7_theorem ("dev \x7b\n@ code .\n\x7d") [] "dev" (fun _ => some 3)
    ("\n@ code .\n").data (by decide) (by decide) (by decide)).2

theorem captureBody_no_rbrace {r b : List Char}
    (h : captureBody r = some b) : rbrace ∉ b := by
  unfold captureBody at h
  by_cases hc : r.contains rbrace = true
  · rw [if_pos hc] at h
    have hb := Option.some.inj h
    subst hb
    intro hm
    have := List.mem_takeWhile_imp hm
    simp at this
  · rw [if_neg hc] at h
    simp at h

theorem extractBlock_no_rbrace :
    ∀ (name s b : List Char), extractBlock name s = some b → rbrace ∉ b := by
  intro name s
  induction s with
  | nil =>
    intro b h
    unfold extractBlock at h
    rcases Option.bind_eq_some.mp h with ⟨r, -, h2⟩
    exact captureBody_no_rbrace h2
  | cons c rest ih =>
    intro b h
    unfold extractBlock at h
    cases hm : (headerMatchAt name (c :: rest)).bind captureBody with
    | some b' =>
      rw [hm] at h
      have hb := Option.some.inj h
      subst hb
      rcases Option.bind_eq_some.mp hm with ⟨r, -, h2⟩
      exact captureBody_no_rbrace h2
    | none =>
      rw [hm] at h
      exact ih b h

/-- C6 (counterexample to the claim as stated): on a block whose body has a
right brace in the middle of a command line, the code's extraction stops at
that first right-brace *character*, while the spec's matching rule (body
ends at the first line consisting solely of `}`) keeps the rest of the
line — the two extractions disagree. -/
theorem C6_counterexample :
    extractBlock ("dev").data ("dev \x7b\n$ echo \x7dx\n\x7d\n").data
      = some ("\n$ echo ").data ∧
    specExtractBlock ("dev").data ("dev \x7b\n$ echo \x7dx\n\x7d\n").data
      = some ("\n$ echo \x7dx").data ∧
    ("\n$ echo ").data ≠ ("\n$ echo \x7dx").data := by
  refine ⟨?_, ?_, ?_⟩
  · decide
  · decide
  · decide

/-- C6 (amended): single-block extraction returns the verbatim text between
the header and the first following right-brace *character* (not the first
line consisting solely of `}`) — hence an extracted body never contains a
right brace — and when duplicate headers share the name, the leftmost
(first) match is used. -/
theorem C6_theorem :
    (∀ (name s b : List Char), extractBlock name s = some b → rbrace ∉ b) ∧
    extractBlock ("dev").data ("dev \x7b\n% a\n\x7d\ndev \x7b\n% b\n\x7d\n").data
      = some ("\n% a\n").data := by
  constructor
  · exact extractBlock_no_rbrace
  · decide

/-- C6 witness: the brace-freedom consequence at a concrete extraction. -/
theorem C6_witness : rbrace ∉ ("\n% a\n").data :=
  C6_theorem.1 ("dev").data ("dev \x7b\n% a\n\x7d").data ("\n% a\n").data (by decide)

/-- C8 (counterexample to the claim as stated): revision 2's registry
loader propagates the `JSON.parse` exception on an unparsable file instead
of yielding the empty mapping, so a `run` against an existing corrupt
`.blocks` crashes the invocation. -/
theorem C8_counterexample :
    readBlocks2 RegFile.corrupt = Except.error () ∧
    Except.error () ≠ Except.ok ([] : Registry) ∧
    (run2 (some "dev \x7b\n% a\n\x7d") RegFile.corrupt "dev"
        (fun _ => none)).crashed = true := by
  refine ⟨?_, ?_, ?_⟩
  · rfl
  · exact fun h => Except.noConfusion h
  · rfl

/-- C8 (amended): revision 1's `readBlocks` recovers from an unparsable
registry file by returning the empty mapping, and no revision-1 operation
crashes on it; revision 2's `readBlocks` throws, so every revision-2
`run` / `kill` / `status` that reads an existing corrupt registry file
crashes the invocation. -/
theorem C8_theorem :
    readBlocks RegFile.corrupt = ([] : Registry) ∧
    readBlocks2 RegFile.corrupt = Except.error () ∧
    (∀ bf arg oracle, (handleRun bf RegFile.corrupt arg oracle).crashed = false) ∧
    (∀ arg termOk, (handleKill RegFile.corrupt arg termOk).crashed = false) ∧
    (∀ arg alive, (handleStatus RegFile.corrupt arg alive).crashed = false) ∧
    (∀ bf arg oracle, (run2 bf RegFile.corrupt arg oracle).crashed = true) ∧
    (∀ arg termOk, (kill2 RegFile.corrupt arg termOk).crashed = true) ∧
    (∀ arg alive, (status2 RegFile.corrupt arg alive).crashed = true) := by
  refine ⟨rfl, rfl, ?_, ?_, ?_, ?_, ?_, ?_⟩
  · intro bf arg oracle
    cases bf with
    | none => rfl
    | some content => rfl
  · intro arg termOk; rfl
  · intro arg alive; rfl
  · intro bf arg oracle; rfl
  · intro arg termOk; rfl
  · intro arg alive; rfl

/-- C9 (counterexample to the claim as stated): with the registry file
missing, revision 2's `status` prints a note and exits 0, not 1; and
revision 1's `run` with the Blocfile missing only prints an error and falls
through with exit code 0, not 1. -/
theorem C9_counterexample :
    (status2 RegFile.absent "dev" (fun _ => false)).code = 0 ∧
    (handleRun none RegFile.absent "dev" (fun _ => none)).code = 0 ∧
    (0 : Nat) ≠ 1 := by
  refine ⟨rfl, rfl, by decide⟩

theorem OpResult_code_ite {c : Prop} [Decidable c] {x y : OpResult} {n : Nat}
    (hx : x.code = n) (hy : y.code = n) : (if c then x else y).code = n := by
  split
  · exact hx
  · exact hy

/-- C9 (amended): revision 2 exits 1 exactly when the Blocfile is missing
on `run` or the registry file is missing on `kill` (an existing but
unparsable registry also yields exit 1, via the crash); revision 2's
`status` exits 0 even when the registry file is missing; revision 1's
`run` / `kill` / `status` always exit 0, reporting the missing-file
preconditions only through messages. -/
theorem C9_theorem :
    (∀ rf arg oracle, (run2 none rf arg oracle).code = 1) ∧
    (∀ content m arg oracle,
        (run2 (some content) (RegFile.valid m) arg oracle).code = 0) ∧
    (∀ content arg oracle,
        (run2 (some content) RegFile.absent arg oracle).code = 0) ∧
    (∀ arg termOk, (kill2 RegFile.absent arg termOk).code = 1) ∧
    (∀ m arg termOk, (kill2 (RegFile.valid m) arg termOk).code = 0) ∧
    (∀ arg alive, (status2 RegFile.absent arg alive).code = 0) ∧
    (∀ m arg alive, (status2 (RegFile.valid m) arg alive).code = 0) ∧
    (∀ bf rf arg oracle, (handleRun bf rf arg oracle).code = 0) ∧
    (∀ rf arg termOk, (handleKill rf arg termOk).code = 0) ∧
    (∀ rf arg alive, (handleStatus rf arg alive).code = 0) := by
  refine ⟨?_, ?_, ?_, ?_, ?_, ?_, ?_, ?_, ?_, ?_⟩
  · intro rf arg oracle
    cases rf with
    | absent => rfl
    | corrupt => rfl
    | valid m => rfl
  · intro content m arg oracle; rfl
  · intro content arg oracle; rfl
  · intro arg termOk; rfl
  · intro m arg termOk
    simp only [kill2, readBlocks2]
    rw [if_pos (show rfPresent (RegFile.valid m) = true from rfl)]
    apply OpResult_code_ite
    · rfl
    · rfl
  · intro arg alive; rfl
  · intro m arg alive
    simp only [status2, readBlocks2]
    rw [if_pos (show rfPresent (RegFile.valid m) = true from rfl)]
    apply OpResult_code_ite
    · rfl
    · rfl
  · intro bf rf arg oracle
    cases bf with
    | none => rfl
    | some content =>
      cases rf with
      | absent => rfl
      | corrupt => rfl
      | valid m => rfl
  · intro rf arg termOk
    cases rf with
    | absent => rfl
    | corrupt => rfl
    | valid m => rfl
  · intro rf arg alive
    cases rf with
    | absent => rfl
    | corrupt => rfl
    | valid m => rfl

/-- C10 (confirmed): the single-block lookup interpolates the block name
into the regex unanchored, so `run dev` on a source defining only `mydev`
matches the `dev` suffix inside the `mydev` header, extracts that block's
body, launches it, and registers its pid under `dev` — although no block
named `dev` exists (the `run all` enumeration finds only `mydev`). -/
theorem C10_theorem :
    blockNamesAll "mydev \x7b\n% sleep 5\n\x7d\n" = ["mydev"] ∧
    ("dev" : String) ∉ blockNamesAll "mydev \x7b\n% sleep 5\n\x7d\n" ∧
    extractBlock ("dev").data ("mydev \x7b\n% sleep 5\n\x7d\n").data
      = some ("\n% sleep 5\n").data ∧
    (handleRun (some "mydev \x7b\n% sleep 5\n\x7d\n") (RegFile.valid []) "dev"
        (fun i => some (50 + i))).rf = RegFile.valid [("dev", [50])] := by
  have hnames : blockNamesAll "mydev \x7b\n% sleep 5\n\x7d\n" = ["mydev"] := by
    simp +decide [blockNamesAll, allHeaderNames, headerAllAt, findClose]
  refine ⟨hnames, ?_, ?_, ?_⟩
  · rw [hnames]
    decide
  · decide
  · decide
